import Mathlib

/-!
# Chat broker: shallow embedding and verification

A shallow embedding of the chat broker's server core
(`src/server/rmi_middleware.js`, `src/server/socket_handler.js`) together
with proofs of its specified properties.

Modelling conventions:
* JS `Map` objects become insertion-ordered association lists
  (`mapGet` / `mapSet` / `mapDelete` mirror `Map.get` / `Map.set` /
  `Map.delete`; `Map.values()` iterates in insertion order).
* `new Date()` / `toISOString()` timestamps are threaded as an explicit
  `now : String` argument; `uuidv4()` as an explicit `freshId : String`.
* `throw new Error(s)` becomes `Except.error s` with the source's message
  string; callers that `try`/`catch` inspect the `Except`.
* A WebSocket handle is a `Conn`: an identity plus whether
  `readyState === OPEN`.  A delivery `ws.send(xml)` becomes a `Send`
  record collected into an output list.
-/

namespace Chat

/-- A registered user, as stored in the middleware's `users` map:
`{userId, username, lastActive}` (`rmi_middleware.js:53-57`). -/
structure User where
  userId : String
  username : String
  lastActive : String
  deriving DecidableEq, Repr

/-- A chat message object.  Required fields are always present on every
message the server builds; `targetUserId`/`targetUsername` only on
PRIVATE messages, `clientId` only on the JOIN confirmation. -/
structure Message where
  userId : String
  username : String
  content : String
  timestamp : String
  type : String
  targetUserId : Option String := none
  targetUsername : Option String := none
  clientId : Option String := none
  deriving DecidableEq, Repr

/-- A WebSocket handle: an identity and whether `readyState === OPEN`. -/
structure Conn where
  id : Nat
  ready : Bool
  deriving DecidableEq, Repr

/-- One `ws.send(payload)` call: which handle, and the wire document sent. -/
structure Send (π : Type) where
  conn : Nat
  payload : π
  deriving DecidableEq, Repr

/-- `Map.get k`: first (unique) entry with key `k`. -/
def mapGet (k : String) (l : List (String × α)) : Option α :=
  (l.find? (fun p => p.1 == k)).map Prod.snd

/-- `Map.set k v`: replace in place if the key exists, else append
(JS `Map` keeps the original insertion position on overwrite). -/
def mapSet (k : String) (v : α) : List (String × α) → List (String × α)
  | [] => [(k, v)]
  | (k', v') :: rest =>
      if k' = k then (k, v) :: rest else (k', v') :: mapSet k v rest

/-- `Map.delete k`. -/
def mapDelete (k : String) (l : List (String × α)) : List (String × α) :=
  l.filter (fun p => p.1 ≠ k)

/-- `Array.from(map.values())`: the values in insertion order. -/
def mapValues (l : List (String × α)) : List α :=
  l.map Prod.snd

/-- JS `String.prototype.trim()`: strip leading and trailing whitespace
(expressed over the character list so that it evaluates by kernel
reduction). -/
def jsTrim (s : String) : String :=
  ⟨((s.data.dropWhile Char.isWhitespace).reverse.dropWhile
      Char.isWhitespace).reverse⟩

/-- JS `String.prototype.toLowerCase()` (expressed over the character
list so that it evaluates by kernel reduction). -/
def jsToLower (s : String) : String :=
  ⟨s.data.map Char.toLower⟩

/-- The middleware's module-level state: the `users` map and the
`messageHistory` array (`rmi_middleware.js:11-12`). -/
structure MidSt where
  users : List (String × User)
  messageHistory : List Message
  deriving DecidableEq, Repr

namespace Rmi

/-- `MAX_HISTORY` (`rmi_middleware.js:13`). -/
def MAX_HISTORY : Nat := 100

/-- `createSystemMessage(content, type)` (`rmi_middleware.js:236-244`). -/
def createSystemMessage (content type now : String) : Message :=
  { userId := "system", username := "Sistema", content := content,
    timestamp := now, type := type }

/-- `saveMessage(message)` (`rmi_middleware.js:250-257`): push, then shift
the oldest message off when the length exceeds `MAX_HISTORY`. -/
def saveMessage (h : List Message) (m : Message) : List Message :=
  let h' := h ++ [m]
  if MAX_HISTORY < h'.length then h'.tail else h'

/-- `getMessageHistory(limit = 20)` (`rmi_middleware.js:202-205`):
`count = Math.min(limit, length)`, then `slice(-count)`.  JS `slice(-0)`
equals `slice(0)` and returns the whole array, hence the `count = 0`
branch. -/
def getMessageHistory (limit : Nat) (h : List Message) : List Message :=
  let count := min limit h.length
  if count = 0 then h else h.drop (h.length - count)

/-- The default value of `getMessageHistory`'s `limit` parameter. -/
def defaultHistoryLimit : Nat := 20

/-- The error message thrown for an empty user name (`rmi_middleware.js:37`). -/
def emptyNameMsg : String := "El nombre de usuario no puede estar vacío"

/-- The error message thrown for a name conflict (`rmi_middleware.js:46`). -/
def nameInUseMsg : String := "El nombre de usuario ya está en uso"

/-- `registerUser(username)` (`rmi_middleware.js:34-76`).  Reject an empty
(after-trim) name; reject when some registered user's name equals the
candidate after `toLowerCase()` (note: the source does **not** trim in the
comparison); otherwise store `{userId := freshId, username, lastActive}`,
save a JOIN system message and emit it.  Returns the new state, the
emitted notifications, and the allocated userId. -/
def registerUser (username freshId now : String) (mid : MidSt) :
    Except String (MidSt × List Message × String) :=
  if jsTrim username = "" then
    .error emptyNameMsg
  else if (mapValues mid.users).any
      (fun u => jsToLower u.username == jsToLower username) then
    .error nameInUseMsg
  else
    let user : User := { userId := freshId, username := username, lastActive := now }
    let joinMessage := createSystemMessage (username ++ " se ha unido al chat") "JOIN" now
    .ok ({ users := mapSet freshId user mid.users,
           messageHistory := saveMessage mid.messageHistory joinMessage },
         [joinMessage], freshId)

/-- `getUsers()` (`rmi_middleware.js:82-84`). -/
def getUsers (mid : MidSt) : List User :=
  mapValues mid.users

/-- `sendMessage(messageData)` (`rmi_middleware.js:91-122`): validate,
look up the sender, refresh `lastActive`, build the CHAT message with the
registry's `user.username`, save it to history, emit it. -/
def sendMessage (userId content now : String) (mid : MidSt) :
    Except String (MidSt × Message) :=
  if userId = "" ∨ content = "" then
    .error "Datos de mensaje incompletos"
  else
    match mapGet userId mid.users with
    | none => .error "Usuario no encontrado"
    | some user =>
        let message : Message :=
          { userId := userId, username := user.username, content := content,
            timestamp := now, type := "CHAT" }
        .ok ({ users := mapSet userId { user with lastActive := now } mid.users,
               messageHistory := saveMessage mid.messageHistory message },
             message)

/-- `sendPrivateMessage(messageData)` (`rmi_middleware.js:129-168`):
validate, look up sender and target, refresh the sender's `lastActive`,
build the PRIVATE message with the registry's names for both ends, save
it, emit it. -/
def sendPrivateMessage (userId : String) (targetUserId : Option String)
    (content now : String) (mid : MidSt) : Except String (MidSt × Message) :=
  if userId = "" ∨ targetUserId.getD "" = "" ∨ content = "" then
    .error "Datos de mensaje privado incompletos"
  else
    match mapGet userId mid.users with
    | none => .error "Usuario remitente no encontrado"
    | some sender =>
        match mapGet (targetUserId.getD "") mid.users with
        | none => .error "Usuario destinatario no encontrado"
        | some target =>
            let message : Message :=
              { userId := userId, username := sender.username,
                targetUserId := targetUserId, targetUsername := some target.username,
                content := content, timestamp := now, type := "PRIVATE" }
            .ok ({ users := mapSet userId { sender with lastActive := now } mid.users,
                   messageHistory := saveMessage mid.messageHistory message },
                 message)

/-- `disconnectUser(userId)` (`rmi_middleware.js:175-195`): delete the
user if present, save and emit a LEAVE system message; `false` when the
user was absent. -/
def disconnectUser (userId now : String) (mid : MidSt) :
    MidSt × List Message × Bool :=
  match mapGet userId mid.users with
  | none => (mid, [], false)
  | some user =>
      let leaveMessage :=
        createSystemMessage (user.username ++ " ha abandonado el chat") "LEAVE" now
      ({ users := mapDelete userId mid.users,
         messageHistory := saveMessage mid.messageHistory leaveMessage },
       [leaveMessage], true)

/-- An XML document as the `xml2js` object mapping sees it: a root element
name and a list of named child elements with textual content. -/
structure XmlDoc where
  root : String
  elems : List (String × String)
  deriving DecidableEq, Repr

/-- Element lookup in a document's children (first match by name). -/
def lookupElem (n : String) (es : List (String × String)) : Option String :=
  (es.find? (fun p => p.1 == n)).map Prod.snd

/-- Modelled from the spec: `messageToXml` (`rmi_middleware.js:212-214`)
delegates to the third-party `xml2js.Builder`, which is not under `src/`;
§4.1 specifies the encode as total and deterministic, rendering every
present field as a distinctly named element under the `message` root and
omitting absent optional fields entirely. -/
def messageToXml (m : Message) : XmlDoc :=
  { root := "message",
    elems :=
      [("userId", m.userId), ("username", m.username), ("content", m.content),
       ("timestamp", m.timestamp), ("type", m.type)]
      ++ (match m.targetUserId with
          | some t => [("targetUserId", t)]
          | none => [])
      ++ (match m.targetUsername with
          | some t => [("targetUsername", t)]
          | none => [])
      ++ (match m.clientId with
          | some t => [("clientId", t)]
          | none => []) }

/-- The decode-failure message (`rmi_middleware.js:226`). -/
def malformedXmlMsg : String := "XML inválido"

/-- Modelled from the spec: `xmlToMessage` (`rmi_middleware.js:221-228`)
delegates to the third-party `xml2js.Parser`, which is not under `src/`;
§4.1 specifies the decode as dispatching on the root element name,
ignoring unknown extra elements, treating missing optional fields as
absent, and failing with a recoverable `MalformedWireFormat` error on
input that is not a well-formed `message` document. -/
def xmlToMessage (d : XmlDoc) : Except String Message :=
  if d.root ≠ "message" then .error malformedXmlMsg
  else
    match lookupElem "userId" d.elems, lookupElem "username" d.elems,
        lookupElem "content" d.elems, lookupElem "timestamp" d.elems,
        lookupElem "type" d.elems with
    | some uid, some un, some c, some ts, some ty =>
        .ok { userId := uid, username := un, content := c, timestamp := ts,
              type := ty,
              targetUserId := lookupElem "targetUserId" d.elems,
              targetUsername := lookupElem "targetUsername" d.elems,
              clientId := lookupElem "clientId" d.elems }
    | _, _, _, _, _ => .error malformedXmlMsg

end Rmi

namespace Socket

/-- The socket handler's full server state: the middleware state plus the
`activeConnections` map (`socket_handler.js:8`). -/
structure SrvSt where
  mid : MidSt
  conns : List (String × Conn)
  deriving DecidableEq, Repr

/-- Modelled from the spec: `JSON.stringify` of one stored user object
(library code, not under `src/`); renders the full record
`{userId, username, lastActive}` (string-escaping of the field values is
elided). -/
def jsonUser (u : User) : String :=
  "\x7b\"userId\":\"" ++ u.userId ++ "\",\"username\":\"" ++ u.username
    ++ "\",\"lastActive\":\"" ++ u.lastActive ++ "\"\x7d"

/-- Modelled from the spec: `JSON.stringify(users)` over the roster array
(`socket_handler.js:240`). -/
def serializeUsers (us : List User) : String :=
  "[" ++ String.intercalate "," (us.map jsonUser) ++ "]"

/-- `broadcastMessage(xmlMessage)` (`socket_handler.js:202-208`): send to
every connection whose `readyState` is `OPEN`, skipping the rest. -/
def broadcastMessage (x : Rmi.XmlDoc) (conns : List (String × Conn)) :
    List (Send Rmi.XmlDoc) :=
  conns.filterMap (fun p => if p.2.ready then some ⟨p.2.id, x⟩ else none)

/-- `sendPrivateMessage(xmlMessage, targetUserId, senderUserId)`
(`socket_handler.js:216-228`): deliver to the target's handle if bound and
open, then an echo copy to the sender's handle if bound, open, and the
sender differs from the target. -/
def sendPrivateMessage (x : Rmi.XmlDoc) (targetUserId : Option String)
    (senderUserId : String) (conns : List (String × Conn)) :
    List (Send Rmi.XmlDoc) :=
  (match targetUserId.bind (fun t => mapGet t conns) with
   | some targetWs => if targetWs.ready then [⟨targetWs.id, x⟩] else []
   | none => []) ++
  (match mapGet senderUserId conns with
   | some senderWs =>
       if senderWs.ready ∧ some senderUserId ≠ targetUserId then
         [⟨senderWs.id, x⟩]
       else []
   | none => [])

/-- The USER_LIST message built by `sendUserListUpdate`
(`socket_handler.js:237-243`). -/
def userListMessage (us : List User) (now : String) : Message :=
  { userId := "system", username := "Sistema", content := serializeUsers us,
    timestamp := now, type := "USER_LIST" }

/-- `sendUserListUpdate()` (`socket_handler.js:233-248`): broadcast the
serialized current roster to all connections. -/
def sendUserListUpdate (mid : MidSt) (conns : List (String × Conn))
    (now : String) : List (Send Rmi.XmlDoc) :=
  broadcastMessage (Rmi.messageToXml (userListMessage (Rmi.getUsers mid) now)) conns

/-- The `chatEvents` listener installed by `subscribeToEvents`
(`socket_handler.js:27-40`): encode the emitted message; route PRIVATE
messages through `sendPrivateMessage`, everything else through
`broadcastMessage`. -/
def dispatchEvent (m : Message) (conns : List (String × Conn)) :
    List (Send Rmi.XmlDoc) :=
  if m.type == "PRIVATE" then
    sendPrivateMessage (Rmi.messageToXml m) m.targetUserId m.userId conns
  else
    broadcastMessage (Rmi.messageToXml m) conns

/-- The skip test of the join-time replay loop (`socket_handler.js:186-189`):
a history entry is withheld from the joining user exactly when it is
PRIVATE and the user is neither its target nor its sender. -/
def replaySkips (uid : String) (m : Message) : Bool :=
  m.type == "PRIVATE" && m.targetUserId != some uid && m.userId != uid

/-- The sequence of history messages replayed to a joining user
(`socket_handler.js:183-192`): `getMessageHistory()` with its default
limit, filtered by the PRIVATE-visibility skip test. -/
def historyReplay (uid : String) (h : List Message) : List Message :=
  (Rmi.getMessageHistory Rmi.defaultHistoryLimit h).filter
    (fun m => !replaySkips uid m)

/-- The JOIN confirmation frame (`socket_handler.js:171-179`). -/
def joinConfirmation (uid now : String) : Message :=
  { userId := "system", username := "Sistema", content := "Conexión establecida",
    timestamp := now, type := "JOIN", clientId := some uid }

/-- The tail of `handleJoin` after a user id has been settled
(`socket_handler.js:167-196`): store the connection, send the JOIN
confirmation, replay filtered history to this connection, then broadcast
the updated roster to everyone (this connection now included). -/
def finishJoin (ws : Conn) (uid now : String) (st : SrvSt)
    (preSends : List (Send Rmi.XmlDoc)) :
    SrvSt × List (Send Rmi.XmlDoc) × String :=
  let conns' := mapSet uid ws st.conns
  let replay := (historyReplay uid st.mid.messageHistory).map
    (fun m => Send.mk ws.id (Rmi.messageToXml m))
  ({ mid := st.mid, conns := conns' },
   preSends ++ [⟨ws.id, Rmi.messageToXml (joinConfirmation uid now)⟩]
     ++ replay ++ sendUserListUpdate st.mid conns' now,
   uid)

/-- The ERROR frame sent on a fresh-join name conflict
(`socket_handler.js:151-157`). -/
def joinConflictError (now : String) : Message :=
  { userId := "system", username := "Sistema",
    content := "Error: El nombre de usuario ya está en uso",
    timestamp := now, type := "ERROR" }

/-- `handleJoin(ws, message)` (`socket_handler.js:130-196`).  A truthy,
non-`"system"` `message.userId` is treated as a reconnect: if the id is
still registered no registration happens, otherwise the name is
registered afresh.  Without a usable id, a case-insensitive (untrimmed)
name check either replies with an ERROR frame and returns early, or the
name is registered.  `Except.error` is an exception propagating to the
caller's `catch`.  Returns the new state, the sends, and the value the
caller assigns to its connection-local `userId`. -/
def handleJoin (ws : Conn) (msg : Message) (freshId now : String) (st : SrvSt) :
    Except String (SrvSt × List (Send Rmi.XmlDoc) × String) :=
  if msg.userId ≠ "" ∧ msg.userId ≠ "system" then
    if (Rmi.getUsers st.mid).any (fun u => u.userId == msg.userId) then
      .ok (finishJoin ws msg.userId now st [])
    else
      match Rmi.registerUser msg.username freshId now st.mid with
      | .error e => .error e
      | .ok (mid', emitted, uid) =>
          .ok (finishJoin ws uid now { mid := mid', conns := st.conns }
            (emitted.flatMap (fun m => dispatchEvent m st.conns)))
  else
    if (Rmi.getUsers st.mid).any
        (fun u => jsToLower u.username == jsToLower msg.username) then
      .ok (st, [⟨ws.id, Rmi.messageToXml (joinConflictError now)⟩], msg.userId)
    else
      match Rmi.registerUser msg.username freshId now st.mid with
      | .error e => .error e
      | .ok (mid', emitted, uid) =>
          .ok (finishJoin ws uid now { mid := mid', conns := st.conns }
            (emitted.flatMap (fun m => dispatchEvent m st.conns)))

/-- The reply built in the `catch` block of the message handler
(`socket_handler.js:96-102`); note the source gives it type `'CHAT'`. -/
def catchReply (e now : String) : Message :=
  { userId := "system", username := "Sistema", content := "Error: " ++ e,
    timestamp := now, type := "CHAT" }

/-- One iteration of the `ws.on('message')` handler
(`socket_handler.js:52-104`): decode the frame, dispatch on its `type`,
and turn any thrown error into a `catchReply` send on this connection.
`cuid` is the connection-local `userId` variable (`""` = unset, matching
JS falsiness of `null` and `''`). -/
def handleSocketMessage (ws : Conn) (freshId now : String) (cuid : String)
    (st : SrvSt) (d : Rmi.XmlDoc) :
    SrvSt × List (Send Rmi.XmlDoc) × String :=
  match Rmi.xmlToMessage d with
  | .error e => (st, [⟨ws.id, Rmi.messageToXml (catchReply e now)⟩], cuid)
  | .ok msg =>
    match msg.type with
    | "JOIN" =>
        match handleJoin ws msg freshId now st with
        | .ok r => r
        | .error e => (st, [⟨ws.id, Rmi.messageToXml (catchReply e now)⟩], cuid)
    | "CHAT" =>
        match Rmi.sendMessage msg.userId msg.content now st.mid with
        | .ok (mid', m) =>
            ({ mid := mid', conns := st.conns }, dispatchEvent m st.conns, cuid)
        | .error e => (st, [⟨ws.id, Rmi.messageToXml (catchReply e now)⟩], cuid)
    | "PRIVATE" =>
        match Rmi.sendPrivateMessage msg.userId msg.targetUserId msg.content
            now st.mid with
        | .ok (mid', m) =>
            ({ mid := mid', conns := st.conns }, dispatchEvent m st.conns, cuid)
        | .error e => (st, [⟨ws.id, Rmi.messageToXml (catchReply e now)⟩], cuid)
    | "LOGOUT" =>
        if cuid ≠ "" then
          match Rmi.disconnectUser cuid now st.mid with
          | (mid', emitted, _) =>
              ({ mid := mid', conns := mapDelete cuid st.conns },
               emitted.flatMap (fun m => dispatchEvent m st.conns), "")
        else (st, [], cuid)
    | _ => (st, [], cuid)

/-- The `ws.on('close')` handler (`socket_handler.js:107-117`): if the
connection had authenticated, drop its binding first, then disconnect the
user (so the LEAVE broadcast no longer reaches the closed handle). -/
def handleSocketClose (cuid now : String) (st : SrvSt) :
    SrvSt × List (Send Rmi.XmlDoc) :=
  if cuid ≠ "" then
    let conns' := mapDelete cuid st.conns
    match Rmi.disconnectUser cuid now st.mid with
    | (mid', emitted, _) =>
        ({ mid := mid', conns := conns' },
         emitted.flatMap (fun m => dispatchEvent m conns'))
  else (st, [])

/-- A sequence of inbound frames on one connection, each with the `now`
timestamp and fresh uuid of its processing instant. -/
def processFrames (ws : Conn) (cuid : String) (st : SrvSt) :
    List (Rmi.XmlDoc × String × String) →
    SrvSt × List (Send Rmi.XmlDoc) × String
  | [] => (st, [], cuid)
  | (d, freshId, now) :: rest =>
      let r := handleSocketMessage ws freshId now cuid st d
      let r' := processFrames ws r.2.2 r.1 rest
      (r'.1, r.2.1 ++ r'.2.1, r'.2.2)

end Socket

end Chat

namespace Chat

lemma saveMessage_length_le (h : List Message) (m : Message)
    (hh : h.length ≤ Rmi.MAX_HISTORY) :
    (Rmi.saveMessage h m).length ≤ Rmi.MAX_HISTORY := by
  simp only [Rmi.saveMessage]
  split
  · simpa using hh
  · next hlt => simpa using Nat.le_of_lt_succ (by simpa [Nat.lt_succ_iff] using Nat.not_lt.mp hlt)

lemma foldl_saveMessage (ms : List Message) : ∀ h : List Message,
    h.length ≤ Rmi.MAX_HISTORY →
    List.foldl Rmi.saveMessage h ms
      = (h ++ ms).drop ((h ++ ms).length - Rmi.MAX_HISTORY) := by
  induction ms with
  | nil =>
      intro h hh
      simp [Nat.sub_eq_zero_of_le hh]
  | cons m ms ih =>
      intro h hh
      rw [List.foldl_cons, ih (Rmi.saveMessage h m) (saveMessage_length_le h m hh)]
      simp only [Rmi.saveMessage]
      split
      · next hlt =>
          have hlen : h.length = Rmi.MAX_HISTORY := by
            simp at hlt; omega
          cases h with
          | nil => simp [Rmi.MAX_HISTORY] at hlen
          | cons a t =>
              have ht : t.length + 1 = Rmi.MAX_HISTORY := by simpa using hlen
              simp only [List.cons_append, List.tail_cons]
              have e1 : t ++ [m] ++ ms = t ++ m :: ms := by simp
              rw [e1]
              have h2 : (a :: (t ++ m :: ms)).length - Rmi.MAX_HISTORY
                  = ((t ++ m :: ms).length - Rmi.MAX_HISTORY) + 1 := by
                simp; omega
              rw [h2, List.drop_succ_cons]
      · have e1 : h ++ [m] ++ ms = h ++ m :: ms := by simp
        rw [e1]

lemma getMessageHistory_of_le (limit : Nat) (h : List Message)
    (hl : h.length ≤ limit) : Rmi.getMessageHistory limit h = h := by
  simp only [Rmi.getMessageHistory, Nat.min_eq_right hl]
  split
  · rfl
  · simp

def c2SampleHistory : List Message :=
  List.replicate 101 (Rmi.createSystemMessage "x" "CHAT" "t")

/-- C2: the message history never holds more than 100 messages — `saveMessage`
evicts the oldest first when the capacity `MAX_HISTORY = 100` is exceeded — and
after appending `N > 100` messages, `getMessageHistory 1000` (a clamping,
non-throwing query) returns exactly the last 100 in their original insertion
order. -/
theorem history_capacity_bound (ms : List Message) :
    (List.foldl Rmi.saveMessage [] ms).length ≤ Rmi.MAX_HISTORY ∧
    (Rmi.MAX_HISTORY < ms.length →
      Rmi.getMessageHistory 1000 (List.foldl Rmi.saveMessage [] ms)
        = ms.drop (ms.length - Rmi.MAX_HISTORY)) := by
  have hfold := foldl_saveMessage ms [] (by simp)
  simp only [List.nil_append] at hfold
  constructor
  · rw [hfold, List.length_drop]
    omega
  · intro _
    rw [hfold]
    refine getMessageHistory_of_le 1000 _ ?_
    rw [List.length_drop]
    simp only [Rmi.MAX_HISTORY]
    omega

/-- C2 witness: 101 appended messages leave exactly the last 100. -/
theorem history_capacity_bound_witness :
    Rmi.MAX_HISTORY < c2SampleHistory.length ∧
    Rmi.getMessageHistory 1000 (List.foldl Rmi.saveMessage [] c2SampleHistory)
      = c2SampleHistory.drop (c2SampleHistory.length - Rmi.MAX_HISTORY) :=
  ⟨by decide, (history_capacity_bound c2SampleHistory).2 (by decide)⟩

/-- C3: in the join-time history replay, a PRIVATE message is delivered to the
joining user iff that user is its sender or its target, while messages of every
other kind are delivered regardless; a user who is neither sender nor target of
a PRIVATE message never receives it in replay. -/
theorem private_replay_visibility (uid : String) (h : List Message) (m : Message) :
    m ∈ Socket.historyReplay uid h ↔
      m ∈ Rmi.getMessageHistory Rmi.defaultHistoryLimit h ∧
        (m.type = "PRIVATE" → m.userId = uid ∨ m.targetUserId = some uid) := by
  simp only [Socket.historyReplay, List.mem_filter, Socket.replaySkips,
    Bool.not_eq_true', Bool.and_eq_false_iff, beq_eq_false_iff_ne, ne_eq,
    bne_eq_false_iff_eq]
  constructor
  · rintro ⟨hm, hc⟩
    refine ⟨hm, fun hp => ?_⟩
    tauto
  · rintro ⟨hm, hc⟩
    refine ⟨hm, ?_⟩
    tauto

lemma getMessageHistory_eq_drop (limit : Nat) (h : List Message)
    (hpos : 0 < limit) :
    Rmi.getMessageHistory limit h = h.drop (h.length - limit) := by
  simp only [Rmi.getMessageHistory]
  split
  · next hz =>
      have : h.length = 0 := by omega
      rw [List.eq_nil_of_length_eq_zero this]
      simp
  · congr 1
    omega

/-- C10: the join-time history replay sends a joining user at most the 20 most
recent messages, because `getMessageHistory`'s limit parameter defaults to 20
and the join handler calls it with no argument — even though the history itself
retains up to 100 messages. -/
theorem replay_default_limit (uid : String) (h : List Message) :
    Rmi.defaultHistoryLimit = 20 ∧
    (Socket.historyReplay uid h).length ≤ 20 ∧
    Socket.historyReplay uid h
      = (h.drop (h.length - 20)).filter (fun m => !Socket.replaySkips uid m) := by
  have hdrop := getMessageHistory_eq_drop Rmi.defaultHistoryLimit h (by decide)
  refine ⟨rfl, ?_, ?_⟩
  · calc (Socket.historyReplay uid h).length
        ≤ (Rmi.getMessageHistory Rmi.defaultHistoryLimit h).length :=
          List.length_filter_le _ _
      _ ≤ 20 := by
          rw [hdrop, List.length_drop, Rmi.defaultHistoryLimit]; omega
  · rw [Socket.historyReplay, hdrop, Rmi.defaultHistoryLimit]

lemma xml_roundtrip (m : Message) :
    Rmi.xmlToMessage (Rmi.messageToXml m) = .ok m := by
  rcases m with ⟨uid, un, c, ts, ty, tgt, tun, cid⟩
  rcases tgt with _ | t <;> rcases tun with _ | u <;> rcases cid with _ | ci <;> rfl

/-- C4: for every Message `m`, `xmlToMessage (messageToXml m) = .ok m` — in
particular both when neither optional field is set and when both are set — and
the encoder (a total function) omits absent optional fields entirely rather
than rendering them as empty elements. -/
theorem codec_roundtrip_and_omission (m : Message) :
    Rmi.xmlToMessage (Rmi.messageToXml m) = .ok m ∧
    ((Rmi.messageToXml m).elems.any (fun p => p.1 == "targetUserId")
        = m.targetUserId.isSome) ∧
    ((Rmi.messageToXml m).elems.any (fun p => p.1 == "targetUsername")
        = m.targetUsername.isSome) := by
  refine ⟨xml_roundtrip m, ?_, ?_⟩ <;>
    rcases m with ⟨uid, un, c, ts, ty, tgt, tun, cid⟩ <;>
    rcases tgt with _ | t <;> rcases tun with _ | u <;> rcases cid with _ | ci <;> rfl

/-- One register call in a sequence: on success count it and keep the new
state; a thrown error leaves both untouched. -/
def registerStep (acc : MidSt × Nat) (c : String × String × String) :
    MidSt × Nat :=
  match Rmi.registerUser c.1 c.2.1 c.2.2 acc.1 with
  | .ok (mid', _, _) => (mid', acc.2 + 1)
  | .error _ => acc

/-- A sequence of `registerUser` calls `(username, freshId, now)` and how
many of them succeed. -/
def registerMany (calls : List (String × String × String)) (mid : MidSt) :
    MidSt × Nat :=
  calls.foldl registerStep (mid, 0)

lemma mem_mapValues_mapSet (k : String) (v : α) (l : List (String × α)) :
    v ∈ mapValues (mapSet k v l) := by
  induction l with
  | nil => simp [mapSet, mapValues]
  | cons p rest ih =>
      rcases p with ⟨k', v'⟩
      by_cases hk : k' = k <;> simp [mapSet, hk, mapValues] at ih ⊢
      · exact Or.inr (by simpa [mapValues] using ih)

lemma registerUser_ok (username freshId now : String) (mid : MidSt)
    (hne : jsTrim username ≠ "")
    (hfree : ∀ u ∈ Rmi.getUsers mid, jsToLower u.username ≠ jsToLower username) :
    Rmi.registerUser username freshId now mid
      = .ok ({ users := mapSet freshId ⟨freshId, username, now⟩ mid.users,
               messageHistory := Rmi.saveMessage mid.messageHistory
                 (Rmi.createSystemMessage (username ++ " se ha unido al chat")
                   "JOIN" now) },
             [Rmi.createSystemMessage (username ++ " se ha unido al chat")
               "JOIN" now],
             freshId) := by
  have hany : ¬ ((mapValues mid.users).any
      (fun u => jsToLower u.username == jsToLower username) = true) := by
    simp only [List.any_eq_true, beq_iff_eq, not_exists, not_and]
    intro u hu
    exact hfree u (by simpa [Rmi.getUsers] using hu)
  rw [Rmi.registerUser, if_neg hne, if_neg hany]

lemma registerUser_error_of_taken (username freshId now : String) (mid : MidSt)
    (htaken : ∃ u ∈ Rmi.getUsers mid, jsToLower u.username = jsToLower username) :
    ∃ e, Rmi.registerUser username freshId now mid = .error e := by
  rw [Rmi.registerUser]
  by_cases hne : jsTrim username = ""
  · exact ⟨_, by rw [if_pos hne]⟩
  · have hany : (mapValues mid.users).any
        (fun u => jsToLower u.username == jsToLower username) = true := by
      obtain ⟨u, hu, he⟩ := htaken
      exact List.any_eq_true.mpr ⟨u, hu, by simpa using he⟩
    exact ⟨_, by rw [if_neg hne, if_pos hany]⟩

lemma registerUser_conflict (username freshId now : String) (mid : MidSt)
    (hne : jsTrim username ≠ "")
    (htaken : ∃ u ∈ Rmi.getUsers mid, jsToLower u.username = jsToLower username) :
    Rmi.registerUser username freshId now mid = .error Rmi.nameInUseMsg := by
  have hany : (mapValues mid.users).any
      (fun u => jsToLower u.username == jsToLower username) = true := by
    obtain ⟨u, hu, he⟩ := htaken
    exact List.any_eq_true.mpr ⟨u, by simpa [Rmi.getUsers] using hu, by simpa using he⟩
  rw [Rmi.registerUser, if_neg hne, if_pos hany]

lemma registerStep_fail (base : String) (acc : MidSt × Nat)
    (c : String × String × String)
    (hbase : ∃ u ∈ Rmi.getUsers acc.1, jsToLower u.username = base)
    (hc : jsToLower c.1 = base) :
    registerStep acc c = acc := by
  obtain ⟨e, he⟩ := registerUser_error_of_taken c.1 c.2.1 c.2.2 acc.1
    (by simpa [hc] using hbase)
  simp [registerStep, he]

lemma registerMany_fail (base : String) :
    ∀ (calls : List (String × String × String)) (acc : MidSt × Nat),
    (∃ u ∈ Rmi.getUsers acc.1, jsToLower u.username = base) →
    (∀ c ∈ calls, jsToLower c.1 = base) →
    calls.foldl registerStep acc = acc := by
  intro calls
  induction calls with
  | nil => intro acc _ _; rfl
  | cons c rest ih =>
      intro acc hbase hcalls
      rw [List.foldl_cons, registerStep_fail base acc c hbase (hcalls c (by simp))]
      exact ih acc hbase (fun c' hc' => hcalls c' (by simp [hc']))

/-- C1 (amended): `registerUser` fails with `NameConflict` iff some currently
registered user's display name equals the candidate under case-insensitive but
**untrimmed** comparison (the source compares `toLowerCase()` of the raw
names); otherwise it allocates a fresh unique id and stores the user; and of
any sequence of register calls whose names are case-variants of one name
(equal after lowercasing, nonempty after trimming), exactly one succeeds. -/
theorem register_untrimmed_conflict (username freshId now : String)
    (mid : MidSt) (calls : List (String × String × String))
    (hne : jsTrim username ≠ "") :
    (Rmi.registerUser username freshId now mid = .error Rmi.nameInUseMsg
       ↔ ∃ u ∈ Rmi.getUsers mid, jsToLower u.username = jsToLower username)
    ∧ ((∀ u ∈ Rmi.getUsers mid, jsToLower u.username ≠ jsToLower username) →
        Rmi.registerUser username freshId now mid
          = .ok ({ users := mapSet freshId ⟨freshId, username, now⟩ mid.users,
                   messageHistory := Rmi.saveMessage mid.messageHistory
                     (Rmi.createSystemMessage
                       (username ++ " se ha unido al chat") "JOIN" now) },
                 [Rmi.createSystemMessage
                   (username ++ " se ha unido al chat") "JOIN" now],
                 freshId))
    ∧ ((∀ u ∈ Rmi.getUsers mid, jsToLower u.username ≠ jsToLower username) →
       (∀ c ∈ calls, jsTrim c.1 ≠ "" ∧ jsToLower c.1 = jsToLower username) →
       calls ≠ [] →
       (registerMany calls mid).2 = 1) := by
  refine ⟨⟨fun herr => ?_, fun ht => registerUser_conflict _ _ _ _ hne ht⟩,
    fun hfree => registerUser_ok _ _ _ _ hne hfree, fun hfree hcalls hnz => ?_⟩
  · by_contra hnot
    push_neg at hnot
    rw [registerUser_ok _ _ _ _ hne hnot] at herr
    exact Except.noConfusion herr
  · match calls, hnz with
    | c :: rest, _ =>
        have hc1 := hcalls c (by simp)
        have hstep : registerStep (mid, 0) c
            = ({ users := mapSet c.2.1 ⟨c.2.1, c.1, c.2.2⟩ mid.users,
                 messageHistory := Rmi.saveMessage mid.messageHistory
                   (Rmi.createSystemMessage
                     (c.1 ++ " se ha unido al chat") "JOIN" c.2.2) }, 1) := by
          have hok := registerUser_ok c.1 c.2.1 c.2.2 mid hc1.1
            (fun u hu => by rw [hc1.2]; exact hfree u hu)
          simp [registerStep, hok]
        rw [registerMany, List.foldl_cons, hstep,
          registerMany_fail (jsToLower username) rest _
            ⟨⟨c.2.1, c.1, c.2.2⟩, by
              simpa [Rmi.getUsers] using
                mem_mapValues_mapSet c.2.1 (⟨c.2.1, c.1, c.2.2⟩ : User) mid.users,
              hc1.2⟩
            (fun c' hc' => (hcalls c' (by simp [hc'])).2)]

def c1State : MidSt := ⟨[("u1", ⟨"u1", "bob", "t0"⟩)], []⟩

/-- C1 counterexample: `"bob "` equals the registered `"bob"` under
case-insensitive whitespace-trimmed comparison, yet `registerUser` succeeds
and stores a second user instead of failing with `NameConflict` — the source's
comparison does not trim. -/
theorem register_trim_counterexample :
    (jsToLower (jsTrim "bob ") = jsToLower (jsTrim "bob")) ∧
    (∃ u ∈ Rmi.getUsers c1State,
      jsToLower (jsTrim u.username) = jsToLower (jsTrim "bob ")) ∧
    Rmi.registerUser "bob " "u2" "t1" c1State
      = .ok (⟨[("u1", ⟨"u1", "bob", "t0"⟩), ("u2", ⟨"u2", "bob ", "t1"⟩)],
             [Rmi.createSystemMessage "bob  se ha unido al chat" "JOIN" "t1"]⟩,
            [Rmi.createSystemMessage "bob  se ha unido al chat" "JOIN" "t1"],
            "u2") :=
  ⟨by decide, by decide, rfl⟩

/-- C1 witness: registering the case-variants `"bob"` then `"BOB"` on an
empty registry succeeds exactly once. -/
theorem register_untrimmed_conflict_witness :
    (jsTrim "Bob" ≠ "") ∧
    (registerMany [("bob", "b", "t1"), ("BOB", "c", "t2")] ⟨[], []⟩).2 = 1 :=
  ⟨by decide,
   (register_untrimmed_conflict "Bob" "a" "t" ⟨[], []⟩
       [("bob", "b", "t1"), ("BOB", "c", "t2")] (by decide)).2.2
     (by decide) (by decide) (by decide)⟩

/-- The bound, open handle of a user, if any. -/
def openConn (u : String) (conns : List (String × Conn)) : Option Nat :=
  match mapGet u conns with
  | some c => if c.ready then some c.id else none
  | none => none

/-- C7: `sendPrivateMessage` (the router unicast) delivers the encoded
message to the target's bound handle if it is open, and separately an echo
copy to the sender's bound handle if it is open and the sender differs from
the target; with no open target binding the message is silently dropped for
the target while the sender echo still occurs, and when sender = target
exactly the one target copy is delivered. -/
theorem private_unicast_delivery (x : Rmi.XmlDoc) (target sender : String)
    (conns : List (String × Conn)) :
    (Socket.sendPrivateMessage x (some target) sender conns
      = (openConn target conns).toList.map (fun i => Send.mk i x)
        ++ (if sender = target then []
            else (openConn sender conns).toList.map (fun i => Send.mk i x)))
    ∧ (sender = target →
        Socket.sendPrivateMessage x (some target) sender conns
          = (openConn target conns).toList.map (fun i => Send.mk i x)) := by
  have hmain : Socket.sendPrivateMessage x (some target) sender conns
      = (openConn target conns).toList.map (fun i => Send.mk i x)
        ++ (if sender = target then []
            else (openConn sender conns).toList.map (fun i => Send.mk i x)) := by
    rcases h1 : mapGet target conns with _ | ct <;>
      rcases h2 : mapGet sender conns with _ | cs <;>
      by_cases hst : sender = target <;>
      simp [Socket.sendPrivateMessage, openConn, h1, h2, hst] <;>
      (try cases hr : ct.ready <;> simp [hr]) <;>
      (try cases hr2 : cs.ready <;> simp [hr2])
  refine ⟨hmain, fun hst => ?_⟩
  rw [hmain, if_pos hst, List.append_nil]

/-- C8: a JOIN frame carrying a previously-issued user id that still exists
in the registry is handled as a reconnect: `handleJoin` runs the plain
`finishJoin` tail, so the middleware state (users and history) is unchanged
— no new User record, no register call, roster size unchanged — and the
connection is bound to the existing id. -/
theorem reconnect_preserves_identity (ws : Conn) (msg : Message)
    (freshId now : String) (st : Socket.SrvSt)
    (hid : msg.userId ≠ "" ∧ msg.userId ≠ "system")
    (hex : (Rmi.getUsers st.mid).any (fun u => u.userId == msg.userId) = true) :
    Socket.handleJoin ws msg freshId now st
      = .ok (Socket.finishJoin ws msg.userId now st [])
    ∧ (Socket.finishJoin ws msg.userId now st []).1.mid = st.mid
    ∧ (Socket.finishJoin ws msg.userId now st []).1.conns
        = mapSet msg.userId ws st.conns
    ∧ (Socket.finishJoin ws msg.userId now st []).2.2 = msg.userId
    ∧ (Rmi.getUsers (Socket.finishJoin ws msg.userId now st []).1.mid).length
        = (Rmi.getUsers st.mid).length := by
  refine ⟨?_, rfl, rfl, rfl, rfl⟩
  rw [Socket.handleJoin, if_pos hid, if_pos hex]

/-- C6 (amended): for every inbound frame whose wire text fails to decode,
the server replies on that connection with a single frame carrying a
human-readable description ("Error: ..."), but of kind `CHAT`, not `ERROR`
(`socket_handler.js:101`); no shared state changes, and the connection
continues processing subsequent frames. -/
theorem decode_failure_nonfatal (ws : Conn) (freshId now cuid : String)
    (st : Socket.SrvSt) (d : Rmi.XmlDoc) (e : String)
    (hd : Rmi.xmlToMessage d = .error e) :
    Socket.handleSocketMessage ws freshId now cuid st d
      = (st, [⟨ws.id, Rmi.messageToXml (Socket.catchReply e now)⟩], cuid)
    ∧ (Socket.catchReply e now).type = "CHAT"
    ∧ (Socket.catchReply e now).content = "Error: " ++ e
    ∧ (∀ rest, Socket.processFrames ws cuid st ((d, freshId, now) :: rest)
        = ((Socket.processFrames ws cuid st rest).1,
           Send.mk ws.id (Rmi.messageToXml (Socket.catchReply e now))
             :: (Socket.processFrames ws cuid st rest).2.1,
           (Socket.processFrames ws cuid st rest).2.2)) := by
  have h1 : Socket.handleSocketMessage ws freshId now cuid st d
      = (st, [⟨ws.id, Rmi.messageToXml (Socket.catchReply e now)⟩], cuid) := by
    rw [Socket.handleSocketMessage, hd]
  refine ⟨h1, rfl, rfl, fun rest => ?_⟩
  rw [Socket.processFrames, h1]
  simp

def badDoc : Rmi.XmlDoc := ⟨"garbage", []⟩

def c6State : Socket.SrvSt :=
  ⟨⟨[("u1", ⟨"u1", "bob", "t0"⟩)], []⟩, [("u1", ⟨1, true⟩)]⟩

/-- C6 counterexample: on a malformed frame the reply frame built by the
`catch` block has kind `CHAT`, not `ERROR` as the claim states. -/
theorem decode_error_reply_counterexample :
    Rmi.xmlToMessage badDoc = .error Rmi.malformedXmlMsg
    ∧ Socket.handleSocketMessage ⟨1, true⟩ "f" "t1" "u1" c6State badDoc
        = (c6State,
           [⟨1, Rmi.messageToXml (Socket.catchReply Rmi.malformedXmlMsg "t1")⟩],
           "u1")
    ∧ (Socket.catchReply Rmi.malformedXmlMsg "t1").type = "CHAT"
    ∧ (Socket.catchReply Rmi.malformedXmlMsg "t1").type ≠ "ERROR" :=
  ⟨rfl, rfl, rfl, by decide⟩

/-- C6 witness: a malformed document on an empty server state produces
exactly the error reply and leaves the state unchanged. -/
theorem decode_failure_nonfatal_witness :
    Rmi.xmlToMessage badDoc = .error Rmi.malformedXmlMsg
    ∧ Socket.handleSocketMessage ⟨2, true⟩ "f" "t" "" ⟨⟨[], []⟩, []⟩ badDoc
        = (⟨⟨[], []⟩, []⟩,
           [⟨2, Rmi.messageToXml (Socket.catchReply Rmi.malformedXmlMsg "t")⟩],
           "") :=
  ⟨rfl,
   (decode_failure_nonfatal ⟨2, true⟩ "f" "t" "" ⟨⟨[], []⟩, []⟩ badDoc
     Rmi.malformedXmlMsg rfl).1⟩

/-- C9: a CHAT frame from a connection whose sender id exists in the
registry is broadcast with the registry's canonical display name for that id
(the client-supplied `username` field of the frame does not occur in the
result), the sender's `lastActive` is set to now, and the message is appended
to history and broadcast to all open bound handles. -/
theorem chat_canonical_broadcast (ws : Conn) (freshId now cuid : String)
    (st : Socket.SrvSt) (frame : Message) (user : User)
    (hty : frame.type = "CHAT")
    (huid : frame.userId ≠ "") (hc : frame.content ≠ "")
    (hu : mapGet frame.userId st.mid.users = some user) :
    Socket.handleSocketMessage ws freshId now cuid st (Rmi.messageToXml frame)
      = ({ mid := { users := mapSet frame.userId { user with lastActive := now }
                      st.mid.users,
                    messageHistory := Rmi.saveMessage st.mid.messageHistory
                      { userId := frame.userId, username := user.username,
                        content := frame.content, timestamp := now,
                        type := "CHAT" } },
           conns := st.conns },
         Socket.broadcastMessage (Rmi.messageToXml
           { userId := frame.userId, username := user.username,
             content := frame.content, timestamp := now, type := "CHAT" })
           st.conns,
         cuid) := by
  have hsend : Rmi.sendMessage frame.userId frame.content now st.mid
      = .ok ({ users := mapSet frame.userId { user with lastActive := now }
                 st.mid.users,
               messageHistory := Rmi.saveMessage st.mid.messageHistory
                 { userId := frame.userId, username := user.username,
                   content := frame.content, timestamp := now,
                   type := "CHAT" } },
             { userId := frame.userId, username := user.username,
               content := frame.content, timestamp := now, type := "CHAT" }) := by
    rw [Rmi.sendMessage, if_neg (by tauto), hu]
  obtain ⟨fuid, fusr, fc, fts, fty, ftg, ftu, fci⟩ := frame
  dsimp only at hty hsend ⊢
  subst hty
  have hred : Socket.handleSocketMessage ws freshId now cuid st
      (Rmi.messageToXml ⟨fuid, fusr, fc, fts, "CHAT", ftg, ftu, fci⟩)
      = match Rmi.sendMessage fuid fc now st.mid with
        | .ok (mid', m) =>
            ({ mid := mid', conns := st.conns }, Socket.dispatchEvent m st.conns, cuid)
        | .error e =>
            (st, [⟨ws.id, Rmi.messageToXml (Socket.catchReply e now)⟩], cuid) := rfl
  rw [hred, hsend]
  rfl

lemma payload_of_mem_broadcastMessage (s : Send Rmi.XmlDoc) (x : Rmi.XmlDoc)
    (conns : List (String × Conn))
    (hs : s ∈ Socket.broadcastMessage x conns) : s.payload = x := by
  simp only [Socket.broadcastMessage, List.mem_filterMap] at hs
  obtain ⟨p, _, he⟩ := hs
  by_cases hr : p.2.ready <;> simp [hr] at he
  rw [← he]

lemma mem_broadcastMessage_of (x : Rmi.XmlDoc) (conns : List (String × Conn))
    (c : Conn) (hc : c ∈ mapValues conns) (hr : c.ready = true) :
    Send.mk c.id x ∈ Socket.broadcastMessage x conns := by
  simp only [mapValues, List.mem_map] at hc
  obtain ⟨p, hp, hpc⟩ := hc
  simp only [Socket.broadcastMessage, List.mem_filterMap]
  exact ⟨p, hp, by rw [hpc, hr]; rfl⟩

lemma lookupElem_type_messageToXml (m : Message) :
    Rmi.lookupElem "type" (Rmi.messageToXml m).elems = some m.type := rfl

lemma finishJoin_userList (ws : Conn) (uid now : String) (st : Socket.SrvSt)
    (preSends : List (Send Rmi.XmlDoc)) (c : Conn)
    (hc : c ∈ mapValues (Socket.finishJoin ws uid now st preSends).1.conns)
    (hr : c.ready = true) :
    Send.mk c.id (Rmi.messageToXml (Socket.userListMessage
        (Rmi.getUsers (Socket.finishJoin ws uid now st preSends).1.mid) now))
      ∈ (Socket.finishJoin ws uid now st preSends).2.1 := by
  simp only [Socket.finishJoin] at hc ⊢
  refine List.mem_append.mpr (Or.inr ?_)
  simp only [Socket.sendUserListUpdate]
  exact mem_broadcastMessage_of _ _ c hc hr

lemma finishJoin_push (ws : Conn) (uid now : String) (st : Socket.SrvSt)
    (pre : List (Send Rmi.XmlDoc)) (st' : Socket.SrvSt)
    (sends : List (Send Rmi.XmlDoc)) (uid' : String)
    (h3 : Socket.finishJoin ws uid now st pre = (st', sends, uid'))
    (c : Conn) (hc : c ∈ mapValues st'.conns) (hr : c.ready = true) :
    Send.mk c.id (Rmi.messageToXml (Socket.userListMessage
      (Rmi.getUsers st'.mid) now)) ∈ sends := by
  have h4 : (Socket.finishJoin ws uid now st pre).1 = st' := by rw [h3]
  have h5 : (Socket.finishJoin ws uid now st pre).2.1 = sends := by rw [h3]
  rw [← h4] at hc
  rw [← h4, ← h5]
  exact finishJoin_userList ws uid now st pre c hc hr

lemma disconnect_sends_no_userList (cuid now : String) (mid : MidSt)
    (conns : List (String × Conn)) (s : Send Rmi.XmlDoc)
    (hs : s ∈ ((Rmi.disconnectUser cuid now mid).2.1).flatMap
      (fun m => Socket.dispatchEvent m conns)) :
    Rmi.lookupElem "type" s.payload.elems ≠ some "USER_LIST" := by
  rw [Rmi.disconnectUser] at hs
  cases hg : mapGet cuid mid.users with
  | none => simp [hg] at hs
  | some user =>
      simp only [hg, List.flatMap_cons, List.flatMap_nil, List.append_nil] at hs
      have hp := payload_of_mem_broadcastMessage s
        (Rmi.messageToXml
          (Rmi.createSystemMessage (user.username ++ " ha abandonado el chat")
            "LEAVE" now))
        conns (by simpa [Socket.dispatchEvent] using hs)
      rw [hp, lookupElem_type_messageToXml]
      simp [Rmi.createSystemMessage]

/-- C5 (amended): a USER_LIST broadcast (serialized full roster) reaches
every open bound connection whenever a join handshake succeeds (fresh
registration or reconnect), but membership changes caused by removal —
a LOGOUT frame or a transport close — broadcast only a LEAVE system message
and never push a USER_LIST. -/
theorem roster_push_on_join_not_on_leave (ws : Conn) (msg : Message)
    (freshId now cuid : String) (st : Socket.SrvSt) :
    (∀ st' sends uid,
      ((msg.userId = "" ∨ msg.userId = "system") →
        ∀ u ∈ Rmi.getUsers st.mid,
          jsToLower u.username ≠ jsToLower msg.username) →
      Socket.handleJoin ws msg freshId now st = .ok (st', sends, uid) →
      ∀ c ∈ mapValues st'.conns, c.ready = true →
        Send.mk c.id (Rmi.messageToXml
          (Socket.userListMessage (Rmi.getUsers st'.mid) now)) ∈ sends)
    ∧ (msg.type = "LOGOUT" →
        ∀ s ∈ (Socket.handleSocketMessage ws freshId now cuid st
            (Rmi.messageToXml msg)).2.1,
          Rmi.lookupElem "type" s.payload.elems ≠ some "USER_LIST")
    ∧ (∀ s ∈ (Socket.handleSocketClose cuid now st).2,
        Rmi.lookupElem "type" s.payload.elems ≠ some "USER_LIST") := by
  refine ⟨?_, ?_, ?_⟩
  · intro st' sends uid hfresh hok c hc hr
    rw [Socket.handleJoin] at hok
    by_cases h1 : msg.userId ≠ "" ∧ msg.userId ≠ "system"
    · rw [if_pos h1] at hok
      by_cases h2 : (Rmi.getUsers st.mid).any
          (fun u => u.userId == msg.userId) = true
      · rw [if_pos h2] at hok
        exact finishJoin_push _ _ _ _ _ _ _ _ (Except.ok.inj hok) c hc hr
      · rw [if_neg h2] at hok
        cases hreg : Rmi.registerUser msg.username freshId now st.mid with
        | error e => rw [hreg] at hok; exact Except.noConfusion hok
        | ok r =>
            rw [hreg] at hok
            exact finishJoin_push _ _ _ _ _ _ _ _ (Except.ok.inj hok) c hc hr
    · rw [if_neg h1] at hok
      have hor : msg.userId = "" ∨ msg.userId = "system" := by
        rcases not_and_or.mp h1 with h | h
        · exact Or.inl (not_not.mp h)
        · exact Or.inr (not_not.mp h)
      by_cases h3 : (Rmi.getUsers st.mid).any
          (fun u => jsToLower u.username == jsToLower msg.username) = true
      · exfalso
        obtain ⟨u, hu, he⟩ := List.any_eq_true.mp h3
        exact hfresh hor u hu (by simpa using he)
      · rw [if_neg h3] at hok
        cases hreg : Rmi.registerUser msg.username freshId now st.mid with
        | error e => rw [hreg] at hok; exact Except.noConfusion hok
        | ok r =>
            rw [hreg] at hok
            exact finishJoin_push _ _ _ _ _ _ _ _ (Except.ok.inj hok) c hc hr
  · obtain ⟨muid, musr, mc, mts, mty, mtg, mtu, mci⟩ := msg
    intro hty
    dsimp only at hty
    subst hty
    intro s hs
    have hred0 : Socket.handleSocketMessage ws freshId now cuid st
        (Rmi.messageToXml ⟨muid, musr, mc, mts, "LOGOUT", mtg, mtu, mci⟩)
        = if cuid ≠ "" then
            match Rmi.disconnectUser cuid now st.mid with
            | (mid', emitted, _) =>
                ({ mid := mid', conns := mapDelete cuid st.conns },
                 emitted.flatMap (fun m => Socket.dispatchEvent m st.conns), "")
          else (st, [], cuid) := rfl
    rw [hred0] at hs
    by_cases hcu : cuid ≠ ""
    · rw [if_pos hcu] at hs
      rcases hdc : Rmi.disconnectUser cuid now st.mid with ⟨mid', emitted, b⟩
      rw [hdc] at hs
      dsimp only at hs
      refine disconnect_sends_no_userList cuid now st.mid st.conns s ?_
      rw [hdc]
      exact hs
    · rw [if_neg hcu] at hs
      exact absurd hs (List.not_mem_nil s)
  · intro s hs
    have hred0 : Socket.handleSocketClose cuid now st
        = if cuid ≠ "" then
            match Rmi.disconnectUser cuid now st.mid with
            | (mid', emitted, _) =>
                ({ mid := mid', conns := mapDelete cuid st.conns },
                 emitted.flatMap
                   (fun m => Socket.dispatchEvent m (mapDelete cuid st.conns)))
          else (st, []) := rfl
    rw [hred0] at hs
    by_cases hcu : cuid ≠ ""
    · rw [if_pos hcu] at hs
      rcases hdc : Rmi.disconnectUser cuid now st.mid with ⟨mid', emitted, b⟩
      rw [hdc] at hs
      dsimp only at hs
      refine disconnect_sends_no_userList cuid now st.mid
        (mapDelete cuid st.conns) s ?_
      rw [hdc]
      exact hs
    · rw [if_neg hcu] at hs
      exact absurd hs (List.not_mem_nil s)

def c5wMsg : Message :=
  ⟨"u1", "x", "Solicitando ingreso al chat", "t1", "JOIN", none, none, none⟩

def c5wState : Socket.SrvSt :=
  ⟨⟨[("u1", ⟨"u1", "alice", "t0"⟩)], []⟩, [("u2", ⟨2, true⟩)]⟩

/-- C5 witness: a reconnect join pushes the USER_LIST to an open connection. -/
theorem roster_push_on_join_not_on_leave_witness :
    Send.mk 5 (Rmi.messageToXml (Socket.userListMessage
        (Rmi.getUsers (Socket.finishJoin ⟨5, true⟩ "u1" "t1" c5wState []).1.mid)
        "t1"))
      ∈ (Socket.finishJoin ⟨5, true⟩ "u1" "t1" c5wState []).2.1 :=
  (roster_push_on_join_not_on_leave ⟨5, true⟩ c5wMsg "f9" "t1" "" c5wState).1
    (Socket.finishJoin ⟨5, true⟩ "u1" "t1" c5wState []).1
    (Socket.finishJoin ⟨5, true⟩ "u1" "t1" c5wState []).2.1
    (Socket.finishJoin ⟨5, true⟩ "u1" "t1" c5wState []).2.2
    (by decide) rfl ⟨5, true⟩ (by decide) rfl

def c5State : Socket.SrvSt :=
  ⟨⟨[("u1", ⟨"u1", "alice", "t0"⟩), ("u2", ⟨"u2", "carol", "t0"⟩)], []⟩,
   [("u1", ⟨1, true⟩), ("u2", ⟨2, true⟩)]⟩

def c5LogoutDoc : Rmi.XmlDoc :=
  Rmi.messageToXml ⟨"u1", "alice", "bye", "t1", "LOGOUT", none, none, none⟩

/-- C5 counterexample: a LOGOUT frame removes the user from the registry (a
membership change) yet none of the produced sends is a USER_LIST message,
though the LEAVE broadcast shows the path was taken. -/
theorem roster_push_counterexample :
    (mapGet "u1" c5State.mid.users).isSome = true
    ∧ mapGet "u1" (Socket.handleSocketMessage ⟨1, true⟩ "f" "t1" "u1" c5State
        c5LogoutDoc).1.mid.users = none
    ∧ ((Socket.handleSocketMessage ⟨1, true⟩ "f" "t1" "u1" c5State
          c5LogoutDoc).2.1.all
        (fun s => Rmi.lookupElem "type" s.payload.elems != some "USER_LIST"))
        = true
    ∧ (Socket.handleSocketMessage ⟨1, true⟩ "f" "t1" "u1" c5State
        c5LogoutDoc).2.1 ≠ [] :=
  ⟨by decide, by decide, by decide, by decide⟩

def c7Doc : Rmi.XmlDoc := ⟨"message", [("type", "PRIVATE")]⟩

def c7Conns : List (String × Conn) := [("a", ⟨1, true⟩), ("b", ⟨2, true⟩)]

def c7ConnsClosed : List (String × Conn) := [("b", ⟨2, true⟩)]

/-- C7 witness: delivery with both ends open, with the target unbound, and with sender = target. -/
theorem private_unicast_delivery_witness :
    Socket.sendPrivateMessage c7Doc (some "a") "b" c7Conns
      = [⟨1, c7Doc⟩, ⟨2, c7Doc⟩]
    ∧ Socket.sendPrivateMessage c7Doc (some "a") "b" c7ConnsClosed
      = [⟨2, c7Doc⟩]
    ∧ Socket.sendPrivateMessage c7Doc (some "a") "a" c7Conns = [⟨1, c7Doc⟩] :=
  ⟨((private_unicast_delivery c7Doc "a" "b" c7Conns).1).trans (by decide),
   ((private_unicast_delivery c7Doc "a" "b" c7ConnsClosed).1).trans (by decide),
   ((private_unicast_delivery c7Doc "a" "a" c7Conns).2 rfl).trans (by decide)⟩

def c8Msg : Message := ⟨"u1", "whatever", "hi", "t3", "JOIN", none, none, none⟩

def c8State : Socket.SrvSt := ⟨⟨[("u1", ⟨"u1", "bob", "t0"⟩)], []⟩, []⟩

/-- C8 witness: a reconnect JOIN for the registered id `u1` leaves the middleware state unchanged. -/
theorem reconnect_preserves_identity_witness :
    (c8Msg.userId ≠ "" ∧ c8Msg.userId ≠ "system")
    ∧ (Rmi.getUsers c8State.mid).any (fun u => u.userId == c8Msg.userId) = true
    ∧ Socket.handleJoin ⟨7, true⟩ c8Msg "f" "t3" c8State
        = .ok (Socket.finishJoin ⟨7, true⟩ c8Msg.userId "t3" c8State [])
    ∧ (Socket.finishJoin ⟨7, true⟩ c8Msg.userId "t3" c8State []).1.mid
        = c8State.mid :=
  ⟨by decide, by decide,
   (reconnect_preserves_identity ⟨7, true⟩ c8Msg "f" "t3" c8State
     (by decide) (by decide)).1,
   (reconnect_preserves_identity ⟨7, true⟩ c8Msg "f" "t3" c8State
     (by decide) (by decide)).2.1⟩

def c9Frame : Message := ⟨"u1", "Spoofy", "hola", "t4", "CHAT", none, none, none⟩

def c9State : Socket.SrvSt :=
  ⟨⟨[("u1", ⟨"u1", "bob", "t0"⟩)], []⟩, [("u1", ⟨1, true⟩)]⟩

/-- C9 witness: a CHAT frame claiming username "Spoofy" for id `u1` is
broadcast with the canonical name "bob". -/
theorem chat_canonical_broadcast_witness :
    c9Frame.type = "CHAT" ∧ c9Frame.userId ≠ "" ∧ c9Frame.content ≠ ""
    ∧ mapGet c9Frame.userId c9State.mid.users = some ⟨"u1", "bob", "t0"⟩
    ∧ Socket.handleSocketMessage ⟨1, true⟩ "f" "t4" "u1" c9State
        (Rmi.messageToXml c9Frame)
      = (⟨⟨[("u1", ⟨"u1", "bob", "t4"⟩)],
           [⟨"u1", "bob", "hola", "t4", "CHAT", none, none, none⟩]⟩,
          [("u1", ⟨1, true⟩)]⟩,
         [⟨1, Rmi.messageToXml ⟨"u1", "bob", "hola", "t4", "CHAT",
            none, none, none⟩⟩],
         "u1") :=
  ⟨rfl, by decide, by decide, rfl,
   (chat_canonical_broadcast ⟨1, true⟩ "f" "t4" "u1" c9State c9Frame
       ⟨"u1", "bob", "t0"⟩ rfl (by decide) (by decide) rfl).trans (by decide)⟩

def c3History : List Message :=
  [⟨"a", "A", "s", "t", "PRIVATE", some "b", some "B", none⟩]

/-- C3 witness: the PRIVATE message is visible to its target `b` in replay. -/
theorem private_replay_visibility_witness :
    (⟨"a", "A", "s", "t", "PRIVATE", some "b", some "B", none⟩ : Message)
      ∈ Socket.historyReplay "b" c3History
    ↔ (⟨"a", "A", "s", "t", "PRIVATE", some "b", some "B", none⟩ : Message)
        ∈ Rmi.getMessageHistory Rmi.defaultHistoryLimit c3History
      ∧ ((⟨"a", "A", "s", "t", "PRIVATE", some "b", some "B", none⟩ :
            Message).type = "PRIVATE" →
          (⟨"a", "A", "s", "t", "PRIVATE", some "b", some "B", none⟩ :
            Message).userId = "b"
          ∨ (⟨"a", "A", "s", "t", "PRIVATE", some "b", some "B", none⟩ :
              Message).targetUserId = some "b") :=
  private_replay_visibility "b" c3History
    ⟨"a", "A", "s", "t", "PRIVATE", some "b", some "B", none⟩

end Chat
